import Mathlib

set_option maxHeartbeats 1000000

/- A shallow embedding of covasim cova_base/model.py: the ParsObj parameter
store with its indexed access and its update_pars merge, the Sim seed
handling and person lookup, the single_run replicate driver and the
multi_run batch driver (the combine branch of multi_run, marked untested in
the source, is outside the scope of every claim and is not modelled).
Python dicts are modelled as insertion ordered association lists with
unique keys, the numeric parameter values as rationals, exceptions as an
explicit error type, the external fuzzy matcher sc.suggest as an abstract
function argument, the normal draw of np.random.normal as an explicit
argument, and the run hook that a concrete subclass overrides as a function
argument (the base class hook raises NotImplementedError). -/

namespace CovaBase

/-- Python exception kinds raised by the modelled code. -/
inductive Err where
  | keyError (msg : String)
  | valueError (msg : String)
  | typeError (msg : String)
  | indexError (msg : String)
  | attributeError (msg : String)
  | notImplementedError
deriving DecidableEq

/-- Decidable equality on Except, so that concrete runs can be settled by
evaluation. -/
instance {ε α : Type} [DecidableEq ε] [DecidableEq α] : DecidableEq (Except ε α) := fun x y =>
  match x, y with
  | Except.ok a, Except.ok b =>
    if h : a = b then isTrue (by rw [h])
    else isFalse (by intro hc; injection hc; exact h (by assumption))
  | Except.ok _, Except.error _ => isFalse (fun hc => Except.noConfusion hc)
  | Except.error _, Except.ok _ => isFalse (fun hc => Except.noConfusion hc)
  | Except.error e, Except.error f =>
    if h : e = f then isTrue (by rw [h])
    else isFalse (by intro hc; injection hc; exact h (by assumption))

abbrev Key := String

/-- Parameter values: every parameter the modelled code touches is numeric. -/
abbrev Val := ℚ

/-- A Python dict, as an insertion ordered association list. -/
abbrev Pars := List (Key × Val)

/-- Membership test of a key in a dict (Python: key in d). -/
def dictMem {κ α : Type} [BEq κ] (d : List (κ × α)) (k : κ) : Bool :=
  d.any (fun kv => kv.1 == k)

/-- Lookup (Python: d[k]), as an option. -/
def dictGet? {κ α : Type} [BEq κ] (d : List (κ × α)) (k : κ) : Option α :=
  (d.find? (fun kv => kv.1 == k)).map (fun kv => kv.2)

/-- Assignment (Python: d[k] = v): replaces in place when the key exists,
appends at the end otherwise. -/
def dictSet {κ α : Type} [BEq κ] (d : List (κ × α)) (k : κ) (v : α) : List (κ × α) :=
  if dictMem d k then d.map (fun kv => if kv.1 == k then (k, v) else kv)
  else d ++ [(k, v)]

/-- Python dict.update: assign every pair of the update, in order. -/
def dictUpdate {κ α : Type} [BEq κ] (d upd : List (κ × α)) : List (κ × α) :=
  upd.foldl (fun acc kv => dictSet acc kv.1 kv.2) d

/-- The key list of a dict, in order (Python: d.keys()). -/
def dictKeys {κ α : Type} (d : List (κ × α)) : List κ := d.map (fun kv => kv.1)

/-- The string made by joining a list of lines with newlines
(Python: backslash-n joined keys in the setitem error message). -/
def joinLines : List String → String
  | [] => ""
  | [k] => k
  | k :: rest => k ++ "\n" ++ joinLines rest

/-- Substring test: does the message m mention the string s. -/
def mentions (m s : String) : Bool := decide (s.data <:+: m.data)

/-- The abstract fuzzy matcher sc.suggest: given a key and the valid keys,
an optional closest match. The source treats it as an external facility. -/
abbrev Suggest := Key → List Key → Option Key

/-- The run hook of a concrete Sim subclass: from the pars and the
verbosity, the pars after the run (the base class raises). -/
abbrev RunHook := Pars → Val → Except Err Pars

/-- ParsObj getitem: a plain dict read, so a missing key raises the bare
Python KeyError whose message is just the key (model.py line 29). -/
def getItem (pars : Pars) (k : Key) : Except Err Val :=
  match dictGet? pars k with
  | some v => Except.ok v
  | none => Except.error (Err.keyError k)

/-- The setitem error message when the fuzzy matcher offers a suggestion
(model.py line 38). -/
def sugMsg (k s : Key) : String :=
  "Key " ++ k ++ " not found; did you mean \"" ++ s ++ "\"?"

/-- The setitem error message when no suggestion exists: it lists all valid
keys (model.py lines 40 and 41). -/
def listMsg (k : Key) (keys : List Key) : String :=
  "Key " ++ k ++ " not found; available keys:\n" ++ joinLines keys

/-- ParsObj setitem (model.py lines 31 to 43): write an existing key in
place, otherwise raise a KeyError carrying a suggestion or the key list. -/
def setItem (sg : Suggest) (pars : Pars) (k : Key) (v : Val) : Except Err Pars :=
  if dictMem pars k then Except.ok (dictSet pars k v)
  else
    match sg k (dictKeys pars) with
    | some s => Except.error (Err.keyError (sugMsg k s))
    | none => Except.error (Err.keyError (listMsg k (dictKeys pars)))

/-- ParsObj.update_pars (model.py lines 45 to 53): adopt the dict when no
store exists yet, otherwise merge it in with dict.update semantics. -/
def update_pars (old : Option Pars) (pars : Pars) : Pars :=
  match old with
  | none => pars
  | some p => dictUpdate p pars

/-- The conflicting argument message of Sim.set_seed (model.py line 86). -/
def seedConflictMsg : String :=
  "You can supply a seed or set randomize=True, but not both"

/-- Sim.set_seed (model.py lines 75 to 93). Returns the pars after the call
together with the value handed to the process wide generator cov_ut.set_seed
(none models randomizing). -/
def set_seed (sg : Suggest) (pars : Pars) (seed : Option Val) (randomize : Bool) :
    Except Err (Pars × Option Val) :=
  if randomize then
    match seed with
    | none => Except.ok (pars, none)
    | some _ => Except.error (Err.valueError seedConflictMsg)
  else
    match seed with
    | none =>
      match dictGet? pars "seed" with
      | some s => Except.ok (pars, some s)
      | none => Except.error (Err.keyError "seed")
    | some s =>
      match setItem sg pars "seed" s with
      | Except.ok p2 => Except.ok (p2, some s)
      | Except.error e => Except.error e

/-- Python list indexing (negative indices count from the end; anything
else out of range raises IndexError). -/
def pyIndex {α : Type} (xs : List α) (i : Int) : Except Err α :=
  let j : Int := if i < 0 then i + xs.length else i
  if j < 0 then Except.error (Err.indexError "list index out of range")
  else
    match xs.get? j.toNat with
    | some x => Except.ok x
    | none => Except.error (Err.indexError "list index out of range")

/-- Sim.get_person (model.py lines 111 to 113): people[uids[ind]], where
uids is the identifier list and people the dict from identifier to person
(a person being itself a ParsObj, carried as its pars). -/
def get_person (uids : List Nat) (people : List (Nat × Pars)) (ind : Int) :
    Except Err Pars :=
  match pyIndex uids ind with
  | Except.error e => Except.error e
  | Except.ok uid =>
    match dictGet? people uid with
    | some p => Except.ok p
    | none => Except.error (Err.keyError (toString uid))

/-- The noise multiplier of single_run (model.py lines 190 to 193). -/
def noisefactor (noiseval : Val) : Val :=
  if noiseval > 0 then 1 + noiseval else 1 / (1 - noiseval)

/-- The fixed priority list of candidate noise parameter names
(model.py line 181). -/
def guesses : List Key := ["r_contact", "r0", "beta"]

/-- The error message of the noise parameter guess (model.py line 184),
a function of the candidates found. -/
def guessMsg (found : List Key) : String :=
  "Cound not guess noise parameter since out of the candidates, " ++
    joinLines found ++ " were found"

/-- The noise parameter guess of single_run (model.py lines 180 to 186):
keep the candidates present in the given pars; exactly one must remain. -/
def guessNoisepar (simPars : Pars) : Except Err Key :=
  match guesses.filter (fun g => dictMem simPars g) with
  | [g] => Except.ok g
  | found => Except.error (Err.keyError (guessMsg found))

/-- The kwargs loop of single_run (model.py lines 200 to 208): an unknown
key raises at once; a known key is written only under verbosity at least
one (the assignment sits inside the verbosity test in the source). -/
def applyKwargs (sg : Suggest) (verbose : Val) :
    Pars → List (Key × Val) → Except Err Pars
  | acc, [] => Except.ok acc
  | acc, (k, v) :: rest =>
    if dictMem acc k then
      if verbose ≥ 1 then
        match setItem sg acc k v with
        | Except.ok acc2 => applyKwargs sg verbose acc2 rest
        | Except.error e => Except.error e
      else applyKwargs sg verbose acc rest
    else
      Except.error (Err.keyError ("Could not set key " ++ k ++
        ": not a valid parameter name"))

/-- The message of constructing Sim with no pars argument. -/
def simMissingParsMsg : String :=
  "__init__ missing 1 required positional argument: pars"

/-- The message of reading the pars attribute of None (model.py line 182
when the template argument sim is None). -/
def attrNoneMsg : String := "NoneType object has no attribute pars"

/-- single_run (model.py lines 157 to 213). The template sim and the pars
entry of sim_args are options; ind, noise and the normal draw are numeric;
kwargs are the extra named overrides. Mirrors the source order: construct
or copy, resolve verbosity, offset the stored seed by ind, reseed, resolve
the noise parameter (reading the template argument, not the copy), apply
the noise multiplier, process kwargs, then run. -/
def single_run (sg : Suggest) (run : RunHook) (sim : Option Pars)
    (ind noise draw : Val) (noisepar : Option Key) (verbose : Option Val)
    (sim_args : Option Pars) (kwargs : List (Key × Val)) : Except Err Pars := do
  let new0 ← match sim with
    | some p => Except.ok p
    | none =>
      match sim_args with
      | some p => Except.ok p
      | none => Except.error (Err.typeError simMissingParsMsg)
  let vb ← match verbose with
    | some v => Except.ok v
    | none => getItem new0 "verbose"
  let s ← getItem new0 "seed"
  let new1 ← setItem sg new0 "seed" (s + ind)
  let sr ← set_seed sg new1 none false
  let new2 := sr.1
  let np2 ← match noisepar with
    | some p => Except.ok p
    | none =>
      match sim with
      | some simPars => guessNoisepar simPars
      | none => Except.error (Err.attributeError attrNoneMsg)
  let cur ← getItem new2 np2
  let new3 ← setItem sg new2 np2 (cur * noisefactor (noise * draw))
  let new4 ← applyKwargs sg vb new3 kwargs
  run new4 vb

/-- The length mismatch message of multi_run (model.py line 238). -/
def lenMismatchMsg : String :=
  "Each entry in iterpars must have the same length"

/-- The iterpars scan of multi_run (model.py lines 234 to 240): n starts as
None, each entry must repeat the running length or the call raises. -/
def iterparsLenAux : Option Nat → List (Key × List Val) → Except Err (Option Nat)
  | acc, [] => Except.ok acc
  | acc, kv :: rest =>
    match acc with
    | some m =>
      if kv.2.length ≠ m then Except.error (Err.valueError lenMismatchMsg)
      else iterparsLenAux (some kv.2.length) rest
    | none => iterparsLenAux (some kv.2.length) rest

/-- The replicate count derived from iterpars (model.py lines 231 to 240). -/
def iterparsLen (ips : List (Key × List Val)) : Except Err (Option Nat) :=
  iterparsLenAux none ips

/-- The fan out of sc.parallelize: run the step on every index in order,
aborting on the first error, and collect the results in order. -/
def runList (step : Nat → Except Err Pars) : List Nat → Except Err (List Pars)
  | [] => Except.ok []
  | i :: rest =>
    match step i with
    | Except.error e => Except.error e
    | Except.ok p =>
      match runList step rest with
      | Except.error e => Except.error e
      | Except.ok ps => Except.ok (p :: ps)

/-- multi_run without the combine branch (model.py lines 216 to 249):
resolve the template, derive the replicate count from iterpars when given
(an empty iterpars dict leaves n as None and np.arange(None) raises), then
run single_run per replicate index in order, handing each replicate its
slice of the iterpars values as extra overrides. The draws function gives
the normal draw of each replicate. -/
def multi_run (sg : Suggest) (run : RunHook) (sim : Option Pars) (n : Nat)
    (noise : Val) (draws : Nat → Val) (noisepar : Option Key)
    (iterpars : Option (List (Key × List Val))) (verbose : Option Val)
    (sim_args : Option Pars) : Except Err (List Pars) := do
  let simT ← match sim with
    | some p => Except.ok p
    | none =>
      match sim_args with
      | some p => Except.ok p
      | none => Except.error (Err.typeError simMissingParsMsg)
  let n2 ← match iterpars with
    | none => Except.ok n
    | some ips => do
      let on2 ← iterparsLen ips
      match on2 with
      | some m => Except.ok m
      | none => Except.error (Err.typeError "arange of None is not valid")
  let ips := match iterpars with
    | none => []
    | some ips => ips
  runList (fun (i : Nat) =>
    single_run sg run (some simT) (i : Val) noise (draws i) noisepar verbose
      sim_args (ips.map (fun kv => (kv.1, kv.2.getD i 0)))) (List.range n2)

/-- The concrete parameter set of the C1 evaluation. -/
def C1pars : Pars := [("seed", 0), ("verbose", 0), ("beta", 2), ("x", 5)]

theorem dictGet?_nil {κ α : Type} [BEq κ] (k : κ) :
    dictGet? ([] : List (κ × α)) k = none := rfl

theorem dictGet?_cons {κ α : Type} [BEq κ] (kv : κ × α) (t : List (κ × α)) (k : κ) :
    dictGet? (kv :: t) k = if kv.1 == k then some kv.2 else dictGet? t k := by
  by_cases h : (kv.1 == k) = true
  · simp [dictGet?, List.find?, h]
  · simp only [Bool.not_eq_true] at h
    simp [dictGet?, List.find?, h]

theorem dictMem_cons {κ α : Type} [BEq κ] (kv : κ × α) (t : List (κ × α)) (k : κ) :
    dictMem (kv :: t) k = (kv.1 == k || dictMem t k) := by
  simp [dictMem]

theorem dictMem_eq_isSome {κ α : Type} [BEq κ] (d : List (κ × α)) (k : κ) :
    dictMem d k = (dictGet? d k).isSome := by
  induction d with
  | nil => rfl
  | cons kv t ih =>
    by_cases h : (kv.1 == k) = true
    · simp [dictMem_cons, dictGet?_cons, h]
    · simp only [Bool.not_eq_true] at h
      simp [dictMem_cons, dictGet?_cons, h, ih]

theorem dictGet?_map_set {κ α : Type} [BEq κ] [LawfulBEq κ] (d : List (κ × α)) (k : κ) (v : α) :
    dictGet? (d.map (fun kv => if kv.1 == k then (k, v) else kv)) k
      = if dictMem d k then some v else none := by
  induction d with
  | nil => rfl
  | cons kv t ih =>
    by_cases h : (kv.1 == k) = true
    · simp [List.map_cons, h, dictGet?_cons, dictMem_cons]
    · simp only [Bool.not_eq_true] at h
      simp [List.map_cons, h, dictGet?_cons, dictMem_cons, ih]

theorem dictGet?_map_set_ne {κ α : Type} [BEq κ] [LawfulBEq κ] (d : List (κ × α)) (k kw : κ)
    (v : α) (hne : k ≠ kw) :
    dictGet? (d.map (fun kv => if kv.1 == kw then (kw, v) else kv)) k = dictGet? d k := by
  induction d with
  | nil => rfl
  | cons kv t ih =>
    by_cases h : (kv.1 == kw) = true
    · have hk : kv.1 = kw := by simpa using h
      have h2 : (kw == k) = false := by simpa using Ne.symm hne
      simp [List.map_cons, h, dictGet?_cons, hk, h2, ih]
    · simp only [Bool.not_eq_true] at h
      simp [List.map_cons, h, dictGet?_cons, ih]

theorem dictGet?_append_self {κ α : Type} [BEq κ] [LawfulBEq κ] (d : List (κ × α)) (k : κ)
    (v : α) (h : dictMem d k = false) : dictGet? (d ++ [(k, v)]) k = some v := by
  induction d with
  | nil => simp [dictGet?_cons, dictGet?_nil]
  | cons kv t ih =>
    rw [dictMem_cons] at h
    simp only [Bool.or_eq_false_iff] at h
    simp [List.cons_append, dictGet?_cons, h.1, ih h.2]

theorem dictGet?_append_ne {κ α : Type} [BEq κ] [LawfulBEq κ] (d : List (κ × α)) (k kw : κ)
    (v : α) (hne : k ≠ kw) : dictGet? (d ++ [(kw, v)]) k = dictGet? d k := by
  induction d with
  | nil =>
    have h2 : (kw == k) = false := by simpa using Ne.symm hne
    simp [dictGet?_cons, dictGet?_nil, h2]
  | cons kv t ih =>
    simp [List.cons_append, dictGet?_cons, ih]

theorem dictGet?_dictSet_self {κ α : Type} [BEq κ] [LawfulBEq κ] (d : List (κ × α)) (k : κ)
    (v : α) : dictGet? (dictSet d k v) k = some v := by
  unfold dictSet
  by_cases h : dictMem d k = true
  · simp [h, dictGet?_map_set]
  · simp only [Bool.not_eq_true] at h
    simp [h, dictGet?_append_self d k v h]

theorem dictGet?_dictSet_ne {κ α : Type} [BEq κ] [LawfulBEq κ] (d : List (κ × α)) (k kw : κ)
    (v : α) (hne : k ≠ kw) : dictGet? (dictSet d kw v) k = dictGet? d k := by
  unfold dictSet
  by_cases h : dictMem d kw = true
  · simp [h, dictGet?_map_set_ne d k kw v hne]
  · simp only [Bool.not_eq_true] at h
    simp [h, dictGet?_append_ne d k kw v hne]

theorem dictMem_dictSet {κ α : Type} [BEq κ] [LawfulBEq κ] (d : List (κ × α)) (k kw : κ)
    (v : α) : dictMem (dictSet d kw v) k = (dictMem d k || k == kw) := by
  by_cases hne : k = kw
  · subst hne
    rw [dictMem_eq_isSome, dictGet?_dictSet_self]
    simp
  · rw [dictMem_eq_isSome, dictGet?_dictSet_ne d k kw v hne, ← dictMem_eq_isSome]
    simp [hne]

theorem dictKeys_map_set {κ α : Type} [BEq κ] [LawfulBEq κ] (d : List (κ × α)) (k : κ) (v : α) :
    dictKeys (d.map (fun kv => if kv.1 == k then (k, v) else kv)) = dictKeys d := by
  induction d with
  | nil => rfl
  | cons kv t ih =>
    by_cases h : (kv.1 == k) = true
    · have hk : kv.1 = k := by simpa using h
      simp [dictKeys, List.map_cons, h, hk] at ih ⊢
      exact ih
    · simp only [Bool.not_eq_true] at h
      simp [dictKeys, List.map_cons, h] at ih ⊢
      exact ih

theorem dictKeys_dictSet {κ α : Type} [BEq κ] [LawfulBEq κ] (d : List (κ × α)) (k : κ) (v : α)
    (h : dictMem d k = true) : dictKeys (dictSet d k v) = dictKeys d := by
  unfold dictSet
  simp only [h, if_true]
  exact dictKeys_map_set d k v

theorem dictMem_dictUpdate {κ α : Type} [BEq κ] [LawfulBEq κ] (d u : List (κ × α)) (k : κ) :
    dictMem (dictUpdate d u) k = (dictMem d k || dictMem u k) := by
  induction u generalizing d with
  | nil => simp [dictUpdate, dictMem]
  | cons kv t ih =>
    have hstep : dictUpdate d (kv :: t) = dictUpdate (dictSet d kv.1 kv.2) t := rfl
    rw [hstep, ih, dictMem_dictSet, dictMem_cons]
    by_cases h : (k == kv.1) = true
    · have : (kv.1 == k) = true := by simp at h; simp [h]
      simp [h, this]
    · simp only [Bool.not_eq_true] at h
      have : (kv.1 == k) = false := by simp at h ⊢; exact fun hc => h hc.symm
      simp [h, this]

theorem mentions_of_infix {m s : String} (h : s.data <:+: m.data) : mentions m s = true := by
  simp [mentions, h]

theorem mentions_append_mid (a b c : String) : mentions (a ++ b ++ c) b = true := by
  apply mentions_of_infix
  rw [String.data_append, String.data_append]
  exact ⟨a.data, c.data, by simp⟩

theorem infix_joinLines {k : String} :
    ∀ {keys : List String}, k ∈ keys → k.data <:+: (joinLines keys).data := by
  intro keys
  induction keys with
  | nil => intro h; cases h
  | cons x rest ih =>
    intro hmem
    cases rest with
    | nil =>
      have hkx : k = x := by simpa using hmem
      subst hkx
      exact List.infix_refl k.data
    | cons y t =>
      rcases List.mem_cons.mp hmem with hkx | hin
      · subst hkx
        have hj : joinLines (k :: y :: t) = k ++ "\n" ++ joinLines (y :: t) := rfl
        rw [hj, String.data_append, String.data_append, List.append_assoc]
        exact (List.prefix_append k.data _).isInfix
      · have hj : joinLines (x :: y :: t) = x ++ "\n" ++ joinLines (y :: t) := rfl
        rw [hj, String.data_append]
        exact (ih hin).trans (List.suffix_append _ _).isInfix

theorem runList_ok_length (step : Nat → Except Err Pars) :
    ∀ (l : List Nat) (r : List Pars), runList step l = Except.ok r → r.length = l.length := by
  intro l
  induction l with
  | nil =>
    intro r h
    simp only [runList] at h
    injection h with h
    rw [← h]
    rfl
  | cons i t ih =>
    intro r h
    simp only [runList] at h
    cases hstep : step i with
    | error e => rw [hstep] at h; exact absurd h (by simp)
    | ok p =>
      rw [hstep] at h
      cases hrec : runList step t with
      | error e => rw [hrec] at h; exact absurd h (by simp)
      | ok ps =>
        rw [hrec] at h
        injection h with h
        rw [← h]
        simp [ih ps hrec]

theorem runList_ok_of_forall (step : Nat → Except Err Pars) (P : Nat → Pars → Prop) :
    ∀ (l : List Nat), (∀ i ∈ l, ∃ p, step i = Except.ok p ∧ P i p) →
      ∃ r, runList step l = Except.ok r ∧ r.length = l.length ∧
        ∀ (j i : Nat) (p : Pars), l[j]? = some i → r[j]? = some p → P i p := by
  intro l
  induction l with
  | nil =>
    intro _
    refine ⟨[], rfl, rfl, ?_⟩
    intro j i p h hq
    simp at h
  | cons a t ih =>
    intro h
    obtain ⟨p, hp, hP⟩ := h a (by simp)
    obtain ⟨r, hr, hlen, hpt⟩ := ih (fun i hi => h i (by simp [hi]))
    refine ⟨p :: r, ?_, by simp [hlen], ?_⟩
    · simp only [runList, hp, hr]
    · intro j i q hj hq
      cases j with
      | zero =>
        simp at hj hq
        rw [← hj, ← hq]
        exact hP
      | succ j2 =>
        simp at hj hq
        exact hpt j2 i q hj hq

theorem iterparsLenAux_const {L : Nat} :
    ∀ (l : List (Key × List Val)), (∀ kv ∈ l, kv.2.length = L) →
      iterparsLenAux (some L) l = Except.ok (some L) := by
  intro l
  induction l with
  | nil => intro _; rfl
  | cons kv t ih =>
    intro h
    have hk : kv.2.length = L := h kv (by simp)
    simp only [iterparsLenAux, hk, ne_eq, not_true_eq_false, if_false, ite_false]
    simpa [hk] using ih (fun x hx => h x (by simp [hx]))

theorem iterparsLen_uniform (ips : List (Key × List Val)) (L : Nat) (hne : ips ≠ [])
    (h : ∀ kv ∈ ips, kv.2.length = L) : iterparsLen ips = Except.ok (some L) := by
  cases ips with
  | nil => exact absurd rfl hne
  | cons kv t =>
    have hk : kv.2.length = L := h kv (by simp)
    show iterparsLenAux none (kv :: t) = Except.ok (some L)
    simp only [iterparsLenAux]
    rw [hk]
    exact iterparsLenAux_const t (fun x hx => h x (by simp [hx]))

theorem iterparsLenAux_some_all {L : Nat} :
    ∀ (l : List (Key × List Val)) (r : Option Nat),
      iterparsLenAux (some L) l = Except.ok r → ∀ kv ∈ l, kv.2.length = L := by
  intro l
  induction l with
  | nil => intro r _ kv hkv; cases hkv
  | cons kv t ih =>
    intro r h kv2 hkv2
    by_cases hl : kv.2.length = L
    · simp only [iterparsLenAux, hl, ne_eq, not_true_eq_false, if_false, ite_false] at h
      rcases List.mem_cons.mp hkv2 with he | hin
      · rw [he]; exact hl
      · exact ih r h kv2 hin
    · simp only [iterparsLenAux, hl, ne_eq, not_false_eq_true, if_true, ite_true] at h
      exact absurd h (by simp)

theorem iterparsLenAux_error_shape :
    ∀ (l : List (Key × List Val)) (acc : Option Nat) (e : Err),
      iterparsLenAux acc l = Except.error e → e = Err.valueError lenMismatchMsg := by
  intro l
  induction l with
  | nil => intro acc e h; exact absurd h (by simp [iterparsLenAux])
  | cons kv t ih =>
    intro acc e h
    cases acc with
    | none => exact ih (some kv.2.length) e h
    | some m =>
      by_cases hl : kv.2.length = m
      · simp only [iterparsLenAux, hl, ne_eq, not_true_eq_false, if_false, ite_false] at h
        exact ih (some m) e h
      · simp only [iterparsLenAux, hl, ne_eq, not_false_eq_true, if_true, ite_true] at h
        injection h with h
        exact h.symm

theorem iterparsLen_ok_all (ips : List (Key × List Val)) (r : Option Nat)
    (h : iterparsLen ips = Except.ok r) :
    ∀ kv ∈ ips, ∀ kv2 ∈ ips, kv.2.length = kv2.2.length := by
  cases ips with
  | nil => intro kv hkv; cases hkv
  | cons kv0 t =>
    have h2 : iterparsLenAux (some kv0.2.length) t = Except.ok r := h
    have hall : ∀ kv ∈ t, kv.2.length = kv0.2.length := iterparsLenAux_some_all t r h2
    intro kv hkv kv2 hkv2
    have e1 : kv.2.length = kv0.2.length := by
      rcases List.mem_cons.mp hkv with he | hin
      · rw [he]
      · exact hall kv hin
    have e2 : kv2.2.length = kv0.2.length := by
      rcases List.mem_cons.mp hkv2 with he | hin
      · rw [he]
      · exact hall kv2 hin
    rw [e1, e2]

theorem iterparsLen_mismatch (ips : List (Key × List Val)) (kv kv2 : Key × List Val)
    (h1 : kv ∈ ips) (h2 : kv2 ∈ ips) (hne : kv.2.length ≠ kv2.2.length) :
    iterparsLen ips = Except.error (Err.valueError lenMismatchMsg) := by
  cases hres : iterparsLen ips with
  | ok r => exact absurd (iterparsLen_ok_all ips r hres kv h1 kv2 h2) hne
  | error e => rw [iterparsLenAux_error_shape ips none e hres]

theorem set_seed_reuse (sg : Suggest) (pars : Pars) (s0 : Val)
    (h : dictGet? pars "seed" = some s0) :
    set_seed sg pars none false = Except.ok (pars, some s0) := by
  simp [set_seed, h]

theorem single_run_template_ok (sg : Suggest) (run : RunHook) (S : Pars)
    (ind noise draw v : Val) (q : Key) (s0 : Val)
    (hs : dictGet? S "seed" = some s0) (hq : dictMem S q = true) (hqs : q ≠ "seed")
    (hrun : ∀ p w, ∃ p2, run p w = Except.ok p2 ∧ dictGet? p2 "seed" = dictGet? p "seed") :
    ∃ p2, single_run sg run (some S) ind noise draw (some q) (some v) none [] = Except.ok p2 ∧
      dictGet? p2 "seed" = some (s0 + ind) := by
  have hmem : dictMem S "seed" = true := by rw [dictMem_eq_isSome, hs]; rfl
  obtain ⟨w, hw⟩ : ∃ w, dictGet? S q = some w := by
    rw [dictMem_eq_isSome] at hq
    exact Option.isSome_iff_exists.mp hq
  have hg1 : dictGet? (dictSet S "seed" (s0 + ind)) "seed" = some (s0 + ind) :=
    dictGet?_dictSet_self S "seed" (s0 + ind)
  have hq1 : dictGet? (dictSet S "seed" (s0 + ind)) q = some w := by
    rw [dictGet?_dictSet_ne S q "seed" (s0 + ind) hqs, hw]
  have hm1 : dictMem (dictSet S "seed" (s0 + ind)) q = true := by
    rw [dictMem_eq_isSome, hq1]; rfl
  obtain ⟨p2, hp2run, hp2seed⟩ :=
    hrun (dictSet (dictSet S "seed" (s0 + ind)) q (w * noisefactor (noise * draw))) v
  have hseed2 := set_seed_reuse sg (dictSet S "seed" (s0 + ind)) (s0 + ind) hg1
  refine ⟨p2, ?_, ?_⟩
  · simp only [single_run, Bind.bind, Monad.toBind, Except.instMonad, Except.bind, getItem,
      setItem, applyKwargs, hs, hmem, if_true, hseed2, hg1, hq1, hm1, hp2run]
  · rw [hp2seed, dictGet?_dictSet_ne _ "seed" q _ (Ne.symm hqs), hg1]

theorem multi_run_core (sg : Suggest) (run : RunHook) (S : Pars) (n : Nat)
    (noise : Val) (draws : Nat → Val) (q : Key) (v : Val) (s0 : Val)
    (hs : dictGet? S "seed" = some s0) (hq : dictMem S q = true) (hqs : q ≠ "seed")
    (hrun : ∀ p w, ∃ p2, run p w = Except.ok p2 ∧ dictGet? p2 "seed" = dictGet? p "seed") :
    ∃ sims, multi_run sg run (some S) n noise draws (some q) none (some v) none
        = Except.ok sims ∧ sims.length = n ∧
      ∀ (j : Nat) (p : Pars), sims[j]? = some p → dictGet? p "seed" = some (s0 + (j : Val)) := by
  have hstep : ∀ i ∈ List.range n,
      ∃ p, single_run sg run (some S) (i : Val) noise (draws i) (some q) (some v) none []
        = Except.ok p ∧ dictGet? p "seed" = some (s0 + (i : Val)) :=
    fun i _ => single_run_template_ok sg run S (i : Val) noise (draws i) v q s0 hs hq hqs hrun
  obtain ⟨r, hr, hlen, hpt⟩ := runList_ok_of_forall
    (fun (i : Nat) => single_run sg run (some S) (i : Val) noise (draws i) (some q) (some v) none [])
    (fun i p => dictGet? p "seed" = some (s0 + (i : Val))) (List.range n) hstep
  refine ⟨r, ?_, by rw [hlen, List.length_range], ?_⟩
  · simp only [multi_run, Bind.bind, Monad.toBind, Except.instMonad, Except.bind, List.map_nil]
    rw [hr]
  · intro j p hp
    have hj : j < n := by
      have : j < r.length := by
        by_contra hc
        rw [List.getElem?_eq_none (by omega)] at hp
        exact Option.noConfusion hp
      rw [hlen, List.length_range] at this
      exact this
    exact hpt j j p (List.getElem?_range hj) hp

/-- C2 counterexample: the store constructed with the single key a, then
updated through update_pars with the key b, silently acquires the new key
b, refuting the claim that later updates through update_pars may only
modify existing keys. -/
theorem C2_update_pars_adds_key :
    dictMem ([("a", (1 : Val))] : Pars) "b" = false ∧
    update_pars (some [("a", (1 : Val))]) [("b", 2)] = [("a", 1), ("b", 2)] ∧
    dictMem (update_pars (some [("a", (1 : Val))]) [("b", 2)]) "b" = true := by
  decide

/-- C2 (amended): the fixed key discipline holds only for indexed writes:
setItem on an existing key succeeds preserving the key list and on an
unknown key raises a KeyError, while update_pars merges with dict.update
semantics, so a key is present after a later update exactly when it was
present before or occurs in the update; in particular update_pars silently
introduces the new keys of its argument. -/
theorem C2_key_discipline :
    (∀ (p u : Pars) (k : Key),
        dictMem (update_pars (some p) u) k = (dictMem p k || dictMem u k)) ∧
    (∀ (sg : Suggest) (p : Pars) (k : Key) (v : Val), dictMem p k = true →
        setItem sg p k v = Except.ok (dictSet p k v) ∧
        dictKeys (dictSet p k v) = dictKeys p) ∧
    (∀ (sg : Suggest) (p : Pars) (k : Key) (v : Val), dictMem p k = false →
        setItem sg p k v = Except.error (Err.keyError
          (match sg k (dictKeys p) with
           | some s => sugMsg k s
           | none => listMsg k (dictKeys p)))) := by
  refine ⟨?_, ?_, ?_⟩
  · intro p u k
    exact dictMem_dictUpdate p u k
  · intro sg p k v h
    exact ⟨by simp [setItem, h], dictKeys_dictSet p k v h⟩
  · intro sg p k v h
    cases hsg : sg k (dictKeys p) with
    | some s => simp [setItem, h, hsg]
    | none => simp [setItem, h, hsg]

/-- Witness of C2_key_discipline at concrete stores: a merge that adds a
key, an indexed write on an existing key, and an indexed write on an
unknown key that raises. -/
theorem C2_key_discipline_witness :
    dictMem (update_pars (some [("a", (1 : Val))]) [("b", 2)]) "b"
        = (dictMem ([("a", (1 : Val))] : Pars) "b" || dictMem ([("b", (2 : Val))] : Pars) "b") ∧
    (setItem (fun _ _ => none) [("a", (1 : Val))] "a" 5
        = Except.ok (dictSet [("a", (1 : Val))] "a" 5) ∧
      dictKeys (dictSet [("a", (1 : Val))] "a" 5) = dictKeys ([("a", (1 : Val))] : Pars)) ∧
    setItem (fun _ _ => none) [("a", (1 : Val))] "b" 7
        = Except.error (Err.keyError (listMsg "b" (dictKeys ([("a", (1 : Val))] : Pars)))) :=
  ⟨C2_key_discipline.1 [("a", 1)] [("b", 2)] "b",
    C2_key_discipline.2.1 (fun _ _ => none) [("a", 1)] "a" 5 (by decide),
    C2_key_discipline.2.2 (fun _ _ => none) [("a", 1)] "b" 7 (by decide)⟩

/-- C3 counterexample: reading the unknown key applf from the store whose
single key is apple raises the bare KeyError applf (model.py line 29 is a
plain dict read): the message mentions neither the closest key apple as a
suggestion nor the valid key list, refuting the claim for reads. -/
theorem C3_getitem_no_suggestion :
    getItem [("apple", (1 : Val))] "applf" = Except.error (Err.keyError "applf") ∧
    mentions "applf" "apple" = false := by
  decide

/-- C3 (amended): an unknown key is an error on both access directions, but
only the write is descriptive: the indexed write raises the KeyError whose
message mentions the fuzzy suggestion when the matcher offers one and
otherwise mentions every valid key, while the indexed read raises the bare
KeyError carrying just the key, with no suggestion and no key list
(model.py lines 27 to 43). -/
theorem C3_unknown_key_errors (sg : Suggest) (p : Pars) (k : Key) (v : Val)
    (h : dictMem p k = false) :
    getItem p k = Except.error (Err.keyError k) ∧
    (∀ s, sg k (dictKeys p) = some s →
      setItem sg p k v = Except.error (Err.keyError (sugMsg k s)) ∧
      mentions (sugMsg k s) s = true) ∧
    (sg k (dictKeys p) = none →
      setItem sg p k v = Except.error (Err.keyError (listMsg k (dictKeys p))) ∧
      ∀ kk ∈ dictKeys p, mentions (listMsg k (dictKeys p)) kk = true) := by
  have hget : dictGet? p k = none := by
    have hiso := dictMem_eq_isSome p k
    rw [h] at hiso
    cases hg : dictGet? p k
    · rfl
    · rw [hg] at hiso; simp at hiso
  refine ⟨by simp [getItem, hget], fun s hsug => ⟨by simp [setItem, h, hsug], ?_⟩,
    fun hnone => ⟨by simp [setItem, h, hnone], ?_⟩⟩
  · exact mentions_append_mid (("Key " ++ k) ++ " not found; did you mean \"") s "\"?"
  · intro kk hkk
    apply mentions_of_infix
    show kk.data <:+: (("Key " ++ k ++ " not found; available keys:\n")
      ++ joinLines (dictKeys p)).data
    rw [String.data_append]
    exact (infix_joinLines hkk).trans (List.suffix_append _ _).isInfix

/-- Witness of C3_unknown_key_errors at a concrete store, once with a
matcher that suggests apple and once with one that suggests nothing. -/
theorem C3_unknown_key_errors_witness :
    getItem [("apple", (1 : Val))] "applf" = Except.error (Err.keyError "applf") ∧
    setItem (fun _ _ => some "apple") [("apple", (1 : Val))] "applf" 3
        = Except.error (Err.keyError (sugMsg "applf" "apple")) ∧
    mentions (sugMsg "applf" "apple") "apple" = true ∧
    setItem (fun _ _ => none) [("apple", (1 : Val))] "applf" 3
        = Except.error
            (Err.keyError (listMsg "applf" (dictKeys ([("apple", (1 : Val))] : Pars)))) := by
  have h1 := C3_unknown_key_errors (fun _ _ => some "apple") [("apple", (1 : Val))] "applf" 3
    (by decide)
  have h2 := C3_unknown_key_errors (fun _ _ => none) [("apple", (1 : Val))] "applf" 3
    (by decide)
  exact ⟨h1.1, (h1.2.1 "apple" rfl).1, (h1.2.1 "apple" rfl).2, (h2.2.2 rfl).1⟩

/-- C5: set_seed with both an explicit seed and randomize raises the
conflicting argument error; with neither it reuses the previously stored
seed, handing it to the generator and leaving the store unchanged; with an
explicit seed and randomize false it persists that seed as the new stored
seed (model.py lines 75 to 93). -/
theorem C5_set_seed_contract (sg : Suggest) (p : Pars) (s : Val) :
    set_seed sg p (some s) true = Except.error (Err.valueError seedConflictMsg) ∧
    (∀ s0, dictGet? p "seed" = some s0 → set_seed sg p none false = Except.ok (p, some s0)) ∧
    (dictMem p "seed" = true →
      set_seed sg p (some s) false = Except.ok (dictSet p "seed" s, some s) ∧
      dictGet? (dictSet p "seed" s) "seed" = some s) := by
  refine ⟨by simp [set_seed], fun s0 hst => set_seed_reuse sg p s0 hst,
    fun hm => ⟨?_, dictGet?_dictSet_self p "seed" s⟩⟩
  simp [set_seed, setItem, hm]

/-- Witness of C5_set_seed_contract at a concrete store. -/
theorem C5_set_seed_contract_witness :
    set_seed (fun _ _ => none) [("seed", (2 : Val))] (some 7) true
        = Except.error (Err.valueError seedConflictMsg) ∧
    set_seed (fun _ _ => none) [("seed", (2 : Val))] none false
        = Except.ok ([("seed", (2 : Val))], some 2) ∧
    (set_seed (fun _ _ => none) [("seed", (2 : Val))] (some 7) false
        = Except.ok (dictSet [("seed", (2 : Val))] "seed" 7, some 7) ∧
      dictGet? (dictSet [("seed", (2 : Val))] "seed" 7) "seed" = some 7) := by
  have h := C5_set_seed_contract (fun _ _ => none) [("seed", (2 : Val))] 7
  exact ⟨h.1, h.2.1 2 (by decide), h.2.2 (by decide)⟩

/-- C7: the noise parameter auto-detection: when the filter of the fixed
candidate list r_contact, r0, beta against the template parameters leaves
exactly one name the detection returns it; when it leaves zero or several
it raises the KeyError naming the found candidates (model.py lines 180 to
186). -/
theorem C7_noise_autodetect (S : Pars) :
    (∀ g, guesses.filter (fun x => dictMem S x) = [g] →
      guessNoisepar S = Except.ok g ∧ dictMem S g = true ∧ g ∈ guesses) ∧
    ((guesses.filter (fun x => dictMem S x)).length ≠ 1 →
      guessNoisepar S = Except.error
        (Err.keyError (guessMsg (guesses.filter (fun x => dictMem S x))))) := by
  constructor
  · intro g hf
    have hgmem : g ∈ guesses.filter (fun x => dictMem S x) := by
      rw [hf]; exact List.mem_singleton_self g
    have hsplit := List.mem_filter.mp hgmem
    refine ⟨?_, hsplit.2, hsplit.1⟩
    unfold guessNoisepar
    rw [hf]
  · intro hlen
    unfold guessNoisepar
    cases hf : guesses.filter (fun x => dictMem S x) with
    | nil => rfl
    | cons g t =>
      cases t with
      | nil => rw [hf] at hlen; simp at hlen
      | cons g2 t2 => rfl

/-- Witness of C7_noise_autodetect at concrete templates: one candidate,
none, and two. -/
theorem C7_noise_autodetect_witness :
    guessNoisepar [("beta", (1 : Val)), ("z", 2)] = Except.ok "beta" ∧
    guessNoisepar [("z", (2 : Val))]
      = Except.error (Err.keyError
          (guessMsg (guesses.filter (fun x => dictMem [("z", (2 : Val))] x)))) ∧
    guessNoisepar [("r0", (2 : Val)), ("beta", 1)]
      = Except.error (Err.keyError
          (guessMsg (guesses.filter (fun x => dictMem [("r0", (2 : Val)), ("beta", 1)] x)))) :=
  ⟨((C7_noise_autodetect [("beta", 1), ("z", 2)]).1 "beta" (by decide)).1,
    (C7_noise_autodetect [("z", 2)]).2 (by decide),
    (C7_noise_autodetect [("r0", 2), ("beta", 1)]).2 (by decide)⟩

/-- C8: the noise multiplier is strictly positive for every rational draw:
it is 1 plus the draw for a strictly positive draw and 1/(1-draw) for a
zero or negative draw (model.py lines 190 to 193). -/
theorem C8_noisefactor_positive (d : Val) :
    0 < noisefactor d ∧ (0 < d → noisefactor d = 1 + d) ∧
      (d ≤ 0 → noisefactor d = 1 / (1 - d)) := by
  unfold noisefactor
  by_cases h : d > 0
  · rw [if_pos h]
    exact ⟨by linarith, fun _ => rfl, fun hle => absurd h (not_lt.mpr hle)⟩
  · rw [if_neg h]
    push_neg at h
    exact ⟨div_pos one_pos (by linarith), fun hlt => absurd hlt (not_lt.mpr h), fun _ => rfl⟩

/-- Witness of C8_noisefactor_positive at a positive and a negative draw. -/
theorem C8_noisefactor_positive_witness :
    (0 < noisefactor 2 ∧ noisefactor 2 = 1 + 2) ∧
    (0 < noisefactor (-3) ∧ noisefactor (-3) = 1 / (1 - (-3))) :=
  ⟨⟨(C8_noisefactor_positive 2).1, (C8_noisefactor_positive 2).2.1 (by norm_num)⟩,
    ⟨(C8_noisefactor_positive (-3)).1, (C8_noisefactor_positive (-3)).2.2 (by norm_num)⟩⟩

/-- C10 counterexample: the positional index -1 lies outside the index
range 0..len-1 of the two entry identifier table, yet get_person does not
raise: as in any Python list access it counts from the end and returns the
last agent, refuting the claim that every index outside the range of the
identifier table is an error. -/
theorem C10_negative_index_returns_agent :
    ((-1 : Int) < 0) ∧
    get_person [10, 11] [(10, [("a", (1 : Val))]), (11, [("b", 2)])] (-1)
      = Except.ok [("b", 2)] := by
  decide

/-- C10 (amended): Sim.get_person maps a positional index to a person
through the identifier list with Python list indexing: an index outside
the valid Python index range, from minus the table length up to but
excluding the length, raises the IndexError; a nonnegative in range index
returns the person the identifier at that position maps to; a negative in
range index counts from the end of the table, returning the person the
identifier at position length plus index maps to, with no error
(model.py lines 111 to 113). -/
theorem C10_get_person_contract (uids : List Nat) (people : List (Nat × Pars)) (ind : Int) :
    ((ind < -(uids.length : Int) ∨ (uids.length : Int) ≤ ind) →
      get_person uids people ind = Except.error (Err.indexError "list index out of range")) ∧
    (∀ uid p, 0 ≤ ind → uids[ind.toNat]? = some uid → dictGet? people uid = some p →
      get_person uids people ind = Except.ok p) ∧
    (∀ uid p, ind < 0 → -(uids.length : Int) ≤ ind →
      uids[(ind + (uids.length : Int)).toNat]? = some uid → dictGet? people uid = some p →
      get_person uids people ind = Except.ok p) := by
  refine ⟨?_, ?_, ?_⟩
  · intro h
    unfold get_person pyIndex
    by_cases hneg : ind < 0
    · have hlt : ind + (uids.length : Int) < 0 := by
        rcases h with h | h
        · omega
        · exfalso; omega
      simp [hneg, hlt]
    · have hge : (uids.length : Int) ≤ ind := by
        rcases h with h | h
        · exfalso; omega
        · exact h
      have hnone : uids[ind.toNat]? = none := List.getElem?_eq_none (by omega)
      simp [hneg, hnone]
  · intro uid p h0 hget hpeople
    unfold get_person pyIndex
    have hneg : ¬ ind < 0 := by omega
    simp [hneg, hget, hpeople]
  · intro uid p hneg hlow hget hpeople
    unfold get_person pyIndex
    have hnn : ¬ (ind + (uids.length : Int) < 0) := by omega
    simp [hneg, hnn, hget, hpeople]

/-- Witness of C10_get_person_contract on a two person table: an index past
the end raises, a nonnegative in range index returns the mapped person,
and the negative in range index -1 returns the last one. -/
theorem C10_get_person_contract_witness :
    get_person [10, 11] [(10, [("a", (1 : Val))]), (11, [("b", 2)])] 5
        = Except.error (Err.indexError "list index out of range") ∧
    get_person [10, 11] [(10, [("a", (1 : Val))]), (11, [("b", 2)])] 1
        = Except.ok [("b", 2)] ∧
    get_person [10, 11] [(10, [("a", (1 : Val))]), (11, [("b", 2)])] (-1)
        = Except.ok [("b", 2)] :=
  ⟨(C10_get_person_contract [10, 11] [(10, [("a", 1)]), (11, [("b", 2)])] 5).1
      (Or.inr (by decide)),
    (C10_get_person_contract [10, 11] [(10, [("a", 1)]), (11, [("b", 2)])] 1).2.1 11 [("b", 2)]
      (by decide) (by decide) (by decide),
    (C10_get_person_contract [10, 11] [(10, [("a", 1)]), (11, [("b", 2)])] (-1)).2.2 11
      [("b", 2)] (by decide) (by decide) (by decide) (by decide)⟩

/-- C1 (code bug evaluation): the spec says extra named overrides must name
existing parameters and are applied after noise injection, but the
assignment in the kwargs loop of single_run sits inside the verbosity test
(model.py line 205, under the line 203 test, with a stray pass after it).
At the concrete C1pars with verbosity zero, the override x=9 on the
existing key x is silently skipped and the run returns the parameters
unchanged, with x still five; under verbosity one the very same call does
apply the override, and an unknown override raises at any verbosity, so
the spec states the evident intent and the guarded assignment is the
slip. -/
theorem C1_override_skipped_run :
    single_run (fun _ _ => none) (fun p _ => Except.ok p) (some C1pars) 0 0 0 (some "beta")
        none none [("x", 9)] = Except.ok C1pars ∧
    getItem C1pars "x" = Except.ok 5 ∧
    single_run (fun _ _ => none) (fun p _ => Except.ok p) (some C1pars) 0 0 0 (some "beta")
        (some 1) none [("x", 9)]
      = Except.ok [("seed", 0), ("verbose", 0), ("beta", 2), ("x", 9)] ∧
    single_run (fun _ _ => none) (fun p _ => Except.ok p) (some C1pars) 0 0 0 (some "beta")
        none none [("zzz", 9)]
      = Except.error (Err.keyError "Could not set key zzz: not a valid parameter name") := by
  refine ⟨?_, by decide, ?_, ?_⟩ <;>
    (simp only [single_run, C1pars, noisefactor, zero_mul, mul_zero, sub_zero, add_zero,
      mul_one, div_one]
     norm_num
     decide)

/-- C4: with no template simulation (sim is None) and no explicit noise
parameter, single_run reaches the auto-detection, which reads the pars of
the template argument itself rather than of the freshly built simulation
(model.py line 182), and the call fails with the attribute access on None,
even when the built simulation holds a seed and exactly one candidate
noise parameter. -/
theorem C4_none_template_attribute_error (sg : Suggest) (run : RunHook) (P : Pars)
    (ind noise draw v : Val) (kwargs : List (Key × Val)) (s0 : Val)
    (hs : dictGet? P "seed" = some s0)
    (_hone : (guesses.filter (fun g => dictMem P g)).length = 1) :
    single_run sg run none ind noise draw none (some v) (some P) kwargs
      = Except.error (Err.attributeError attrNoneMsg) := by
  have hmem : dictMem P "seed" = true := by rw [dictMem_eq_isSome, hs]; rfl
  have hg1 : dictGet? (dictSet P "seed" (s0 + ind)) "seed" = some (s0 + ind) :=
    dictGet?_dictSet_self P "seed" (s0 + ind)
  have hseed2 := set_seed_reuse sg (dictSet P "seed" (s0 + ind)) (s0 + ind) hg1
  simp only [single_run, Bind.bind, Monad.toBind, Except.instMonad, Except.bind, getItem,
    setItem, hs, hmem, if_true, hseed2]

/-- Witness of C4_none_template_attribute_error on a concrete sim_args
store holding a seed and the single candidate beta. -/
theorem C4_none_template_attribute_error_witness :
    single_run (fun _ _ => none) (fun p _ => Except.ok p) none 0 0 0 none (some 0)
        (some [("seed", (0 : Val)), ("beta", 1)]) []
      = Except.error (Err.attributeError attrNoneMsg) :=
  C4_none_template_attribute_error (fun _ _ => none) (fun p _ => Except.ok p)
    [("seed", (0 : Val)), ("beta", 1)] 0 0 0 0 [] 0 (by decide) (by decide)

/-- C6: a batch run from a template with stored seed s0, without
combination, returns exactly n replicate simulations, in replicate order,
whose stored seeds are s0+0, ..., s0+(n-1): reading the stored seed across
the returned batch yields exactly that sequence. The template must hold a
seed and the chosen noise parameter, and the concrete run hook (abstract
in this fragment) must succeed and preserve the stored seed. -/
theorem C6_batch_seed_offsets (sg : Suggest) (run : RunHook) (S : Pars) (n : Nat)
    (noise : Val) (draws : Nat → Val) (q : Key) (v : Val) (s0 : Val)
    (hs : dictGet? S "seed" = some s0) (hq : dictMem S q = true) (hqs : q ≠ "seed")
    (hrun : ∀ p w, ∃ p2, run p w = Except.ok p2 ∧ dictGet? p2 "seed" = dictGet? p "seed") :
    (multi_run sg run (some S) n noise draws (some q) none (some v) none).map
        (fun sims => sims.map (fun p => getItem p "seed"))
      = Except.ok ((List.range n).map (fun (j : Nat) => Except.ok (s0 + (j : Val)))) := by
  obtain ⟨sims, hok, hlen, hpt⟩ := multi_run_core sg run S n noise draws q v s0 hs hq hqs hrun
  rw [hok]
  simp only [Except.map]
  congr 1
  apply List.ext_getElem?
  intro j
  rw [List.getElem?_map, List.getElem?_map]
  by_cases hj : j < n
  · have hjs : j < sims.length := by rw [hlen]; exact hj
    rw [List.getElem?_eq_getElem hjs, List.getElem?_range hj]
    have hseed := hpt j (sims[j]) (List.getElem?_eq_getElem hjs)
    simp [getItem, hseed]
  · have h1 : sims[j]? = none := List.getElem?_eq_none (by rw [hlen]; omega)
    have h2 : (List.range n)[j]? = none := List.getElem?_eq_none (by rw [List.length_range]; omega)
    rw [h1, h2]
    rfl

/-- Witness of C6_batch_seed_offsets: two replicates from a template with
seed zero and the noise parameter beta, under the identity run hook. -/
theorem C6_batch_seed_offsets_witness :
    (multi_run (fun _ _ => none) (fun p _ => Except.ok p)
          (some [("seed", (0 : Val)), ("beta", 3)]) 2 0 (fun _ => 0) (some "beta") none
          (some 0) none).map (fun sims => sims.map (fun p => getItem p "seed"))
      = Except.ok ((List.range 2).map (fun (j : Nat) => Except.ok ((0 : Val) + (j : Val)))) :=
  C6_batch_seed_offsets (fun _ _ => none) (fun p _ => Except.ok p)
    [("seed", 0), ("beta", 3)] 2 0 (fun _ => 0) "beta" 0 0 (by decide) (by decide) (by decide)
    (fun p w => ⟨p, rfl, rfl⟩)

/-- C9: in a batch run given per replicate parameter sequences, two
sequences of different lengths make multi_run raise the length mismatch
ValueError whatever the run hook and the draws, before any replicate is
dispatched; when every sequence has one common length the replicate count,
the length of the returned batch, equals that common length (model.py
lines 230 to 243). -/
theorem C9_iterpars_contract (sg : Suggest) (run : RunHook) (S : Pars) (n : Nat)
    (noise : Val) (draws : Nat → Val) (noisepar : Option Key) (verbose : Option Val)
    (sim_args : Option Pars) (ips : List (Key × List Val)) :
    ((∃ kv, kv ∈ ips ∧ ∃ kv2, kv2 ∈ ips ∧ kv.2.length ≠ kv2.2.length) →
      multi_run sg run (some S) n noise draws noisepar (some ips) verbose sim_args
        = Except.error (Err.valueError lenMismatchMsg)) ∧
    (∀ L, ips ≠ [] → (∀ kv ∈ ips, kv.2.length = L) →
      ∀ sims, multi_run sg run (some S) n noise draws noisepar (some ips) verbose sim_args
          = Except.ok sims → sims.length = L) := by
  constructor
  · rintro ⟨kv, h1, kv2, h2, hne⟩
    have hIter := iterparsLen_mismatch ips kv kv2 h1 h2 hne
    simp only [multi_run, Bind.bind, Monad.toBind, Except.instMonad, Except.bind, hIter]
  · intro L hnemp hall sims hmr
    have hIter := iterparsLen_uniform ips L hnemp hall
    simp only [multi_run, Bind.bind, Monad.toBind, Except.instMonad, Except.bind, hIter] at hmr
    have hlen := runList_ok_length _ (List.range L) sims hmr
    rw [List.length_range] at hlen
    exact hlen

/-- Witness of C9_iterpars_contract: the mismatched sequences a of length
two and b of length three raise, and one sequence of length one yields a
batch of one. -/
theorem C9_iterpars_contract_witness :
    multi_run (fun _ _ => none) (fun p _ => Except.ok p)
        (some [("seed", (0 : Val)), ("beta", 3)]) 0 0 (fun _ => 0) (some "beta")
        (some [("a", [1, 2]), ("b", [1, 2, 3])]) (some 0) none
      = Except.error (Err.valueError lenMismatchMsg) ∧
    ([[("seed", (0 : Val)), ("beta", 3)]] : List Pars).length = 1 := by
  constructor
  · exact (C9_iterpars_contract (fun _ _ => none) (fun p _ => Except.ok p)
      [("seed", 0), ("beta", 3)] 0 0 (fun _ => 0) (some "beta") (some 0) none
      [("a", [1, 2]), ("b", [1, 2, 3])]).1
      ⟨("a", [1, 2]), by decide, ("b", [1, 2, 3]), by decide, by decide⟩
  · exact (C9_iterpars_contract (fun _ _ => none) (fun p _ => Except.ok p)
      [("seed", 0), ("beta", 3)] 0 0 (fun _ => 0) (some "beta") (some 0) none
      [("beta", [5])]).2 1 (by decide) (by decide) [[("seed", 0), ("beta", 3)]]
      (by simp only [multi_run, single_run, runList, iterparsLen, iterparsLenAux, noisefactor,
            getItem, setItem, set_seed, applyKwargs, dictGet?, dictMem, dictSet, dictKeys,
            List.range, List.range.loop, List.find?, List.any, Except.bind, Bind.bind,
            Monad.toBind, Except.instMonad, zero_mul, mul_zero, sub_zero, add_zero, mul_one,
            div_one, Nat.cast_zero, Nat.cast_one, Nat.cast_ofNat]
          norm_num
          decide)

end CovaBase
